import Mathlib

/-
  Verification of the shot-resolution and turn-handling logic of the
  Python-Bataille-Navale repository.

  The embedded code is `battleships/players/HumanPlayer.py`.  The `Fleet`
  collaborator (collision lookup, damage bookkeeping, sunk queries) and the
  engine primitives (input registry, board geometry, rectangle test) are not
  part of the provided sources; they are modelled from the specification and
  each such definition says so in its doc comment.  Everything taken from
  `HumanPlayer.py` follows that file's control flow statement by statement.
-/

namespace Bataille

/-- Screen or board coordinates: a 2D integer vector (engine.math.Vector2). -/
abbrev Vec2 := Int × Int

/-- Modelled from the spec: the missing Ship class. "Ship: occupies a set of
grid cells; tracks cumulative damage; derived sunk status when
damage >= length." Cells are a list of grid coordinates; `dmg` is the
cumulative damage counter. -/
structure Ship where
  cells : List Vec2
  dmg : Nat
deriving DecidableEq

/-- Length of a ship: its number of cells. -/
def Ship.len (s : Ship) : Nat := s.cells.length

/-- Modelled from the spec: derived sunk status of one ship, "sunk when
damage >= length". -/
def Ship.sunk (s : Ship) : Bool := s.len ≤ s.dmg

/-- Modelled from the spec: "Fleet: collection of Ships owned by one
player". -/
abbrev Fleet := List Ship

/-- Modelled from the spec: the missing `Fleet.collision_check` — "collision
lookup (coordinate -> ship or none)".  Returns the index of the first ship
one of whose cells is the queried coordinate. -/
def Fleet.collision_check (f : Fleet) (c : Vec2) : Option Nat :=
  match f with
  | [] => none
  | s :: rest =>
    if c ∈ s.cells then some 0
    else (Fleet.collision_check rest c).map (· + 1)

/-- Modelled from the spec: the missing `Fleet.damage` — "Firing at a ship
cell increments that ship's damage by exactly one per call."  Increments the
damage of the ship at the given index. -/
def Fleet.damage (f : Fleet) (i : Nat) : Fleet :=
  match f, i with
  | [], _ => []
  | s :: rest, 0 => { s with dmg := s.dmg + 1 } :: rest
  | s :: rest, n + 1 => s :: Fleet.damage rest n

/-- Modelled from the spec: the missing one-argument `Fleet.is_sunk(ship)`
query, looked up by ship index. -/
def Fleet.is_sunk (f : Fleet) (i : Nat) : Bool :=
  match f[i]? with
  | some s => s.sunk
  | none => false

/-- Modelled from the spec: the missing zero-argument `Fleet.is_sunk()` —
"aggregate sunk check (all ships sunk)". -/
def Fleet.all_sunk (f : Fleet) : Bool := f.all Ship.sunk

/-- Damage counter of the ship at index `i` (0 when out of range). -/
def Fleet.dmgAt (f : Fleet) (i : Nat) : Nat :=
  match f[i]? with
  | some s => s.dmg
  | none => 0

/-- Length of the ship at index `i` (0 when out of range). -/
def Fleet.lenAt (f : Fleet) (i : Nat) : Nat :=
  match f[i]? with
  | some s => s.len
  | none => 0

/-- The hit classification: the `SHOT_HIT_TYPE_*` constants of the Player
contract, "enumeration {MISS, HIT, HIT_AND_SUNK, GAME_OVER}". -/
inductive HitResult where
  | MISS
  | HIT
  | HIT_AND_SUNK
  | GAME_OVER
deriving DecidableEq

/-- The fixed prompt strings shown through InGameConsole.show_std_text. -/
inductive GameText where
  | REQ_FIRE
  | DO_SHOOT
  | REQ_HIT
  | GET_HIT_MISS
  | GET_HIT_HIT
  | GET_HIT_SUNK
  | AWAIT_SHOT
  | NEW_TURN
  | END_TURN
deriving DecidableEq

/-- Observable effects emitted by the player code: console texts, sound
cues, hit markers, calls into `Fleet.damage`, the `hit` callback, calls into
the base `Player.fire` and the registration of a valid shot by it. -/
inductive Ev where
  | text (t : GameText)
  | sound (s : String)
  | marker (tex : String)
  | damageIdx (i : Nat)
  | hitCall (r : HitResult)
  | fireRequest (c : Vec2)
  | shotRegistered (c : Vec2)
deriving DecidableEq

/-- HumanPlayer.hit (lines 148-160): forwards the status and shows the
matching console text (MISS and HIT have their own texts, both sunk
variants share the SUNK text). -/
def hitEvents (r : HitResult) : List Ev :=
  Ev.hitCall r ::
    match r with
    | .MISS => [Ev.text .GET_HIT_MISS]
    | .HIT => [Ev.text .GET_HIT_HIT]
    | _ => [Ev.text .GET_HIT_SUNK]

/-- HumanPlayer.request_hit (lines 107-146): look the coordinate up in the
fleet; show the REQ_HIT text and add a WaterSplash/BoatDamage marker; on a
miss play WaterExplosion and report MISS; on a touch play Explosion,
increment the touched ship's damage, then report HIT when it is still not
sunk, GAME_OVER when the whole fleet is now sunk, and HIT_AND_SUNK
otherwise.  Returns the updated fleet, the reported status and the emitted
effects. -/
def request_hit (f : Fleet) (c : Vec2) : Fleet × HitResult × List Ev :=
  match Fleet.collision_check f c with
  | none =>
    (f, .MISS,
      [Ev.text .REQ_HIT, Ev.marker "WaterSplash", Ev.sound "WaterExplosion"]
        ++ hitEvents .MISS)
  | some i =>
    let f' := Fleet.damage f i
    let status : HitResult :=
      if ¬ Fleet.is_sunk f' i then .HIT
      else if Fleet.all_sunk f' then .GAME_OVER
      else .HIT_AND_SUNK
    (f', status,
      [Ev.text .REQ_HIT, Ev.marker "BoatDamage", Ev.sound "Explosion",
        Ev.damageIdx i] ++ hitEvents status)

/-- The fleet after a sequence of resolved shots (repeated request_hit). -/
def shoot_list (f : Fleet) : List Vec2 → Fleet
  | [] => f
  | c :: rest => shoot_list (request_hit f c).1 rest

example :
    (request_hit [⟨[((3 : Int), (3 : Int))], 0⟩] ((3 : Int), (3 : Int))).2.1
      = HitResult.GAME_OVER := by decide

example :
    (request_hit [⟨[((3 : Int), (3 : Int))], 0⟩] ((0 : Int), (0 : Int))).2.1
      = HitResult.MISS := by decide

example :
    (request_hit [⟨[((3 : Int), (3 : Int))], 0⟩, ⟨[((1 : Int), (1 : Int))], 0⟩]
      ((3 : Int), (3 : Int))).2.1 = HitResult.HIT_AND_SUNK := by decide

example :
    (request_hit [⟨[((3 : Int), (3 : Int)), ((3 : Int), (4 : Int))], 0⟩]
      ((3 : Int), (3 : Int))).2.1 = HitResult.HIT := by decide

/-- Modelled from the spec: the missing `engine.math.Vector2.in_rect` —
the "bounding-rectangle check": the point lies inside the axis-aligned
rectangle given by its top-left corner and its size. -/
def in_rect (m topLeft size : Vec2) : Bool :=
  decide (topLeft.1 ≤ m.1) && decide (m.1 < topLeft.1 + size.1) &&
  decide (topLeft.2 ≤ m.2) && decide (m.2 < topLeft.2 + size.2)

/-- Modelled from the spec: the affine map from screen position to
board-local grid cell, "subtract top-left, divide by cell size"
(Python floor division on both components). -/
def toCell (m topLeft : Vec2) (cellSize : Int) : Vec2 :=
  (Int.fdiv (m.1 - topLeft.1) cellSize, Int.fdiv (m.2 - topLeft.2) cellSize)

/-- A pygame event as seen by handle_input: a MOUSEBUTTONDOWN with a screen
position, or any other event type. -/
inductive PEvent where
  | mouseDown (pos : Vec2)
  | other
deriving DecidableEq

/-- The per-player UI state touched by the turn handlers: whether this
player is registered with the engine's input handler, the two board
visibility flags, and the state `β` of the base Player class (whose code is
not among the provided sources and is kept abstract). -/
structure HState (β : Type) where
  listening : Bool
  shot_board_visible : Bool
  ship_board_visible : Bool
  base : β
deriving DecidableEq

section TurnMachine

variable {β : Type}

/-- HumanPlayer.fire (lines 93-105): delegate to the base `Player.fire`
(abstract `superFire`, returning its new state and whether the shot was
accepted); on acceptance play the "Fire" sound and show the DO_SHOOT text
and return True, otherwise return False.  The trace records the delegated
call, the registration of an accepted shot, and the sound/text cues. -/
def fire (superFire : Vec2 → β → β × Bool) (b : β) (c : Vec2) :
    β × Bool × List Ev :=
  let r := superFire c b
  if r.2 then
    (r.1, true, [Ev.fireRequest c, Ev.shotRegistered c, Ev.sound "Fire",
      Ev.text .DO_SHOOT])
  else
    (r.1, false, [Ev.fireRequest c])

/-- HumanPlayer.handle_input (lines 197-212): only on a MOUSEBUTTONDOWN,
and only when the position passes the in_rect bounding check against the
shot board, fire at the mapped grid cell; when fire returns True,
deregister from the input handler. -/
def handle_input (superFire : Vec2 → β → β × Bool)
    (topLeft size : Vec2) (cellSize : Int)
    (s : HState β) (e : PEvent) : HState β × List Ev :=
  match e with
  | .other => (s, [])
  | .mouseDown m =>
    if in_rect m topLeft size then
      let r := fire superFire s.base (toCell m topLeft cellSize)
      if r.2.1 then
        ({ s with base := r.1, listening := false }, r.2.2)
      else
        ({ s with base := r.1 }, r.2.2)
    else
      (s, [])

/-- Modelled from the spec: the engine's input dispatch delivers an event
to the listener only while it is registered ("register/unregister a
listener receiving raw UI events"). -/
def dispatch (superFire : Vec2 → β → β × Bool)
    (topLeft size : Vec2) (cellSize : Int)
    (s : HState β) (e : PEvent) : HState β × List Ev :=
  if s.listening then handle_input superFire topLeft size cellSize s e
  else (s, [])

/-- Event-loop run of one turn: dispatch each UI event in order,
accumulating the emitted effects. -/
def runEvents (superFire : Vec2 → β → β × Bool)
    (topLeft size : Vec2) (cellSize : Int)
    (s : HState β) : List PEvent → HState β × List Ev
  | [] => (s, [])
  | e :: rest =>
    let r := dispatch superFire topLeft size cellSize s e
    let r' := runEvents superFire topLeft size cellSize r.1 rest
    (r'.1, r.2 ++ r'.2)

/-- HumanPlayer.request_shot (lines 79-91): show the REQ_FIRE text, make
the shot board visible and the ship board invisible, and register with the
input handler. -/
def request_shot (s : HState β) : HState β × List Ev :=
  ({ s with
      shot_board_visible := true
      ship_board_visible := false
      listening := true }, [Ev.text .REQ_FIRE])

/-- HumanPlayer.await_opponent_shot (lines 192-195): hide the shot board,
show the ship board, and show the AWAIT_SHOT text. -/
def await_opponent_shot (s : HState β) : HState β × List Ev :=
  ({ s with shot_board_visible := false, ship_board_visible := true },
    [Ev.text .AWAIT_SHOT])

end TurnMachine

/-- Recogniser for the shot-registration effect, used to count how many
valid shots a run of the event loop accepts. -/
def isShotReg : Ev → Bool
  | .shotRegistered _ => true
  | _ => false

/-! Concrete fixtures used to instantiate the claim theorems (the spec's §8
example: a 1-cell ship at (3,3), plus a second 1-cell ship at (1,1)). -/

/-- The board cell (3,3). -/
def cellA : Vec2 := ((3 : Int), (3 : Int))

/-- The board cell (1,1). -/
def cellB : Vec2 := ((1 : Int), (1 : Int))

/-- The board cell (0,0), occupied by no fixture ship. -/
def cellZ : Vec2 := ((0 : Int), (0 : Int))

/-- A fleet made of a single undamaged 1-cell ship at (3,3). -/
def fleetOne : Fleet := [⟨[cellA], 0⟩]

/-- A fleet made of two undamaged 1-cell ships, at (3,3) and (1,1). -/
def fleetTwo : Fleet := [⟨[cellA], 0⟩, ⟨[cellB], 0⟩]

/-! Basic lemmas about the fleet bookkeeping. -/

theorem damage_getElem? (f : Fleet) (i j : Nat) :
    (Fleet.damage f i)[j]? =
      if j = i then f[j]?.map (fun s => { s with dmg := s.dmg + 1 })
      else f[j]? := by
  induction f generalizing i j with
  | nil => cases j <;> simp [Fleet.damage]
  | cons s rest ih =>
    cases i with
    | zero => cases j with
      | zero => simp [Fleet.damage]
      | succ n => simp [Fleet.damage]
    | succ m => cases j with
      | zero => simp [Fleet.damage]
      | succ n => simpa [Fleet.damage, Nat.succ_inj] using ih m n

theorem damage_length (f : Fleet) (i : Nat) :
    (Fleet.damage f i).length = f.length := by
  induction f generalizing i with
  | nil => rfl
  | cons s rest ih => cases i <;> simp [Fleet.damage, ih]

theorem damage_map_cells (f : Fleet) (i : Nat) :
    (Fleet.damage f i).map Ship.cells = f.map Ship.cells := by
  induction f generalizing i with
  | nil => rfl
  | cons s rest ih => cases i <;> simp [Fleet.damage, ih]

theorem dmgAt_damage_self (f : Fleet) (i : Nat) (hi : i < f.length) :
    Fleet.dmgAt (Fleet.damage f i) i = Fleet.dmgAt f i + 1 := by
  have h := damage_getElem? f i i
  rw [if_pos rfl, List.getElem?_eq_getElem hi] at h
  simp [Fleet.dmgAt, h, List.getElem?_eq_getElem hi]

theorem dmgAt_damage_ne (f : Fleet) (i j : Nat) (hne : j ≠ i) :
    Fleet.dmgAt (Fleet.damage f i) j = Fleet.dmgAt f j := by
  have h := damage_getElem? f i j
  rw [if_neg hne] at h
  simp [Fleet.dmgAt, h]

theorem is_sunk_damage_ne (f : Fleet) (i j : Nat) (hne : j ≠ i) :
    Fleet.is_sunk (Fleet.damage f i) j = Fleet.is_sunk f j := by
  have h := damage_getElem? f i j
  rw [if_neg hne] at h
  simp [Fleet.is_sunk, h]

theorem lenAt_congr (f g : Fleet) (h : f.map Ship.cells = g.map Ship.cells)
    (i : Nat) : Fleet.lenAt f i = Fleet.lenAt g i := by
  have h1 : (f.map Ship.cells)[i]? = (g.map Ship.cells)[i]? := by rw [h]
  rw [List.getElem?_map, List.getElem?_map] at h1
  unfold Fleet.lenAt Ship.len
  cases hf : f[i]? <;> cases hg : g[i]? <;>
    simp [hf, hg] at h1 ⊢
  rw [h1]

theorem lenAt_damage (f : Fleet) (i j : Nat) :
    Fleet.lenAt (Fleet.damage f i) j = Fleet.lenAt f j :=
  lenAt_congr _ _ (damage_map_cells f i) j

theorem collision_check_some (f : Fleet) (c : Vec2) (i : Nat)
    (h : Fleet.collision_check f c = some i) :
    ∃ s, f[i]? = some s ∧ c ∈ s.cells := by
  induction f generalizing i with
  | nil => simp [Fleet.collision_check] at h
  | cons s rest ih =>
    rw [Fleet.collision_check] at h
    by_cases hc : c ∈ s.cells
    · rw [if_pos hc] at h
      obtain rfl : i = 0 := (Option.some_inj.mp h).symm
      exact ⟨s, by simp, hc⟩
    · rw [if_neg hc] at h
      obtain ⟨k, hk, rfl⟩ := Option.map_eq_some'.mp h
      obtain ⟨s', hs', hcs'⟩ := ih k hk
      exact ⟨s', by simpa using hs', hcs'⟩

theorem collision_check_lt (f : Fleet) (c : Vec2) (i : Nat)
    (h : Fleet.collision_check f c = some i) : i < f.length := by
  obtain ⟨s, hs, _⟩ := collision_check_some f c i h
  exact (List.getElem?_eq_some.mp hs).1

theorem collision_check_congr (f g : Fleet)
    (h : f.map Ship.cells = g.map Ship.cells) (c : Vec2) :
    Fleet.collision_check f c = Fleet.collision_check g c := by
  induction f generalizing g with
  | nil =>
    have : g = [] := by
      cases g with
      | nil => rfl
      | cons x xs => simp at h
    subst this; rfl
  | cons s rest ih =>
    cases g with
    | nil => simp at h
    | cons s' rest' =>
      simp only [List.map_cons, List.cons.injEq] at h
      rw [Fleet.collision_check, Fleet.collision_check, h.1,
        ih rest' h.2]

theorem is_sunk_eq_getElem? (f : Fleet) (i : Nat) (s : Ship)
    (hs : f[i]? = some s) :
    Fleet.is_sunk f i = s.sunk := by
  simp [Fleet.is_sunk, hs]

theorem is_sunk_iff_dmg (f : Fleet) (i : Nat) (hi : i < f.length) :
    Fleet.is_sunk f i = true ↔ Fleet.lenAt f i ≤ Fleet.dmgAt f i := by
  simp [Fleet.is_sunk, Fleet.lenAt, Fleet.dmgAt, Ship.sunk,
    List.getElem?_eq_getElem hi]

theorem all_sunk_is_sunk (f : Fleet) (i : Nat) (hi : i < f.length)
    (h : Fleet.all_sunk f = true) : Fleet.is_sunk f i = true := by
  rw [Fleet.all_sunk, List.all_eq_true] at h
  rw [is_sunk_eq_getElem? f i _ (List.getElem?_eq_getElem hi)]
  exact h _ (List.getElem_mem hi)

theorem all_sunk_false_exists (f : Fleet) (h : Fleet.all_sunk f = false) :
    ∃ i, i < f.length ∧ Fleet.is_sunk f i = false := by
  rw [Fleet.all_sunk, List.all_eq_false] at h
  obtain ⟨s, hmem, hns⟩ := h
  obtain ⟨i, hi, rfl⟩ := List.mem_iff_getElem.mp hmem
  refine ⟨i, hi, ?_⟩
  rw [is_sunk_eq_getElem? f i _ (List.getElem?_eq_getElem hi)]
  simpa using hns

theorem request_hit_map_cells (f : Fleet) (c : Vec2) :
    (request_hit f c).1.map Ship.cells = f.map Ship.cells := by
  cases hcol : Fleet.collision_check f c with
  | none => simp [request_hit, hcol]
  | some i => simp [request_hit, hcol, damage_map_cells]

theorem request_hit_collision (f : Fleet) (c d : Vec2) :
    Fleet.collision_check (request_hit f c).1 d = Fleet.collision_check f d :=
  collision_check_congr _ _ (request_hit_map_cells f c) d

theorem request_hit_dmgAt (f : Fleet) (c : Vec2) (i : Nat) :
    Fleet.dmgAt (request_hit f c).1 i =
      Fleet.dmgAt f i +
        (if Fleet.collision_check f c = some i then 1 else 0) := by
  cases hcol : Fleet.collision_check f c with
  | none => simp [request_hit, hcol]
  | some j =>
    have hfst : (request_hit f c).1 = Fleet.damage f j := by
      simp [request_hit, hcol]
    rw [hfst]
    by_cases hij : i = j
    · subst hij
      rw [dmgAt_damage_self f i (collision_check_lt f c i hcol),
        if_pos rfl]
    · rw [dmgAt_damage_ne f j i hij, if_neg (by simp; omega)]
      omega

theorem shoot_list_map_cells (L : List Vec2) (f : Fleet) :
    (shoot_list f L).map Ship.cells = f.map Ship.cells := by
  induction L generalizing f with
  | nil => rfl
  | cons c rest ih => rw [shoot_list, ih, request_hit_map_cells]

theorem shoot_list_dmgAt (L : List Vec2) (f : Fleet) (i : Nat) :
    Fleet.dmgAt (shoot_list f L) i =
      Fleet.dmgAt f i +
        (L.filter
          (fun c => decide (Fleet.collision_check f c = some i))).length := by
  induction L generalizing f with
  | nil => simp [shoot_list]
  | cons c rest ih =>
    rw [shoot_list, ih, request_hit_dmgAt, List.filter_cons]
    have hcong : rest.filter
        (fun d => decide (Fleet.collision_check (request_hit f c).1 d = some i))
        = rest.filter
          (fun d => decide (Fleet.collision_check f d = some i)) := by
      apply List.filter_congr
      intro d _
      rw [request_hit_collision]
    rw [hcong]
    by_cases h : Fleet.collision_check f c = some i
    · simp [h]; omega
    · simp [h]

theorem filter_touch_le_len (f : Fleet) (i : Nat) (hi : i < f.length)
    (L : List Vec2) (hnd : L.Nodup) :
    (L.filter
      (fun c => decide (Fleet.collision_check f c = some i))).length ≤
      Fleet.lenAt f i := by
  obtain ⟨s, hs⟩ : ∃ s, f[i]? = some s := ⟨f[i], List.getElem?_eq_getElem hi⟩
  have hsub : (L.filter
      (fun c => decide (Fleet.collision_check f c = some i))) ⊆ s.cells := by
    intro x hx
    rw [List.mem_filter] at hx
    have hcol := of_decide_eq_true hx.2
    obtain ⟨s', hs', hmem⟩ := collision_check_some f x i hcol
    rw [hs] at hs'
    obtain rfl : s = s' := Option.some_inj.mp hs'
    exact hmem
  have hnd2 := hnd.filter
    (fun c => decide (Fleet.collision_check f c = some i))
  have hle := (List.subperm_of_subset hnd2 hsub).length_le
  simpa [Fleet.lenAt, hs, Ship.len] using hle

/-! Lemmas about the turn event loop. -/

theorem runEvents_not_listening {β : Type} (sf : Vec2 → β → β × Bool)
    (tl sz : Vec2) (cs : Int) (s : HState β) (h : s.listening = false)
    (es : List PEvent) : runEvents sf tl sz cs s es = (s, []) := by
  induction es with
  | nil => rfl
  | cons e rest ih => simp [runEvents, dispatch, h, ih]

theorem dispatch_reg_step {β : Type} (sf : Vec2 → β → β × Bool)
    (tl sz : Vec2) (cs : Int) (s : HState β) (e : PEvent) :
    ((dispatch sf tl sz cs s e).2.filter isShotReg).length = 0 ∨
    (((dispatch sf tl sz cs s e).2.filter isShotReg).length = 1 ∧
      (dispatch sf tl sz cs s e).1.listening = false) := by
  rw [dispatch]
  cases hl : s.listening with
  | false => simp
  | true =>
    simp only [if_pos rfl]
    cases e with
    | other => simp [handle_input]
    | mouseDown m =>
      rw [handle_input]
      by_cases hr : in_rect m tl sz
      · rw [if_pos hr]
        cases hacc : (sf (toCell m tl cs) s.base).2 with
        | false => left; simp [fire, hacc, isShotReg]
        | true => right; simp [fire, hacc, isShotReg]
      · rw [if_neg hr]
        simp

theorem runEvents_reg {β : Type} (sf : Vec2 → β → β × Bool)
    (tl sz : Vec2) (cs : Int) (es : List PEvent) (s : HState β) :
    ((runEvents sf tl sz cs s es).2.filter isShotReg).length ≤ 1 := by
  induction es generalizing s with
  | nil => simp [runEvents]
  | cons e rest ih =>
    rw [runEvents]
    simp only [List.filter_append, List.length_append]
    rcases dispatch_reg_step sf tl sz cs s e with h | ⟨h1, h2⟩
    · have := ih (dispatch sf tl sz cs s e).1
      omega
    · rw [runEvents_not_listening sf tl sz cs _ h2 rest]
      simp [h1]

/-! The claim theorems. -/

/-- C1: resolving a shot (request_hit) first looks the coordinate up in the
fleet; no ship there gives MISS; a ship there gets its damage incremented by
exactly one (and only that ship), and the result is HIT while it is not yet
sunk, HIT_AND_SUNK when it is sunk but other ships remain afloat, and
GAME_OVER when all ships of the fleet are fully damaged. -/
theorem C1_request_hit_resolution (f : Fleet) (c : Vec2) :
    (Fleet.collision_check f c = none →
      (request_hit f c).1 = f ∧ (request_hit f c).2.1 = HitResult.MISS) ∧
    (∀ i, Fleet.collision_check f c = some i →
      Fleet.dmgAt (request_hit f c).1 i = Fleet.dmgAt f i + 1 ∧
      (∀ j, j ≠ i → Fleet.dmgAt (request_hit f c).1 j = Fleet.dmgAt f j) ∧
      (Fleet.is_sunk (request_hit f c).1 i = false →
        (request_hit f c).2.1 = HitResult.HIT) ∧
      (Fleet.is_sunk (request_hit f c).1 i = true →
        Fleet.all_sunk (request_hit f c).1 = false →
        (request_hit f c).2.1 = HitResult.HIT_AND_SUNK) ∧
      (Fleet.all_sunk (request_hit f c).1 = true →
        (request_hit f c).2.1 = HitResult.GAME_OVER)) := by
  constructor
  · intro h
    simp [request_hit, h]
  · intro i h
    have hi : i < f.length := collision_check_lt f c i h
    have hfst : (request_hit f c).1 = Fleet.damage f i := by
      simp [request_hit, h]
    refine ⟨?_, ?_, ?_, ?_, ?_⟩
    · rw [hfst]; exact dmgAt_damage_self f i hi
    · intro j hj; rw [hfst]; exact dmgAt_damage_ne f i j hj
    · intro hs
      rw [hfst] at hs
      simp [request_hit, h, hs]
    · intro hs hall
      rw [hfst] at hs hall
      simp [request_hit, h, hs, hall]
    · intro hall
      rw [hfst] at hall
      have hsunk : Fleet.is_sunk (Fleet.damage f i) i = true :=
        all_sunk_is_sunk _ i (by rw [damage_length]; exact hi) hall
      simp [request_hit, h, hsunk, hall]

/-- Witness for C1: firing at (3,3) in the two-ship fleet increments the
first ship's damage from 0 to 1 and reports HIT_AND_SUNK. -/
theorem C1_request_hit_resolution_witness :
    Fleet.dmgAt (request_hit fleetTwo cellA).1 0
      = Fleet.dmgAt fleetTwo 0 + 1 ∧
    (request_hit fleetTwo cellA).2.1 = HitResult.HIT_AND_SUNK := by
  have h := (C1_request_hit_resolution fleetTwo cellA).2 0 (by decide)
  exact ⟨h.1, h.2.2.2.1 (by decide) (by decide)⟩

/-- C2: when the collision lookup finds no ship at the coordinate, the shot
resolves to MISS, the fleet comes back unchanged, and no call to
Fleet.damage is among the emitted effects. -/
theorem C2_miss_leaves_fleet_unchanged (f : Fleet) (c : Vec2)
    (h : Fleet.collision_check f c = none) :
    (request_hit f c).1 = f ∧
    (request_hit f c).2.1 = HitResult.MISS ∧
    ∀ i, Ev.damageIdx i ∉ (request_hit f c).2.2 := by
  refine ⟨by simp [request_hit, h], by simp [request_hit, h], ?_⟩
  intro i
  simp [request_hit, h, hitEvents]

/-- Witness for C2: firing at the empty cell (0,0) of the two-ship fleet. -/
theorem C2_miss_leaves_fleet_unchanged_witness :
    (request_hit fleetTwo cellZ).1 = fleetTwo ∧
    (request_hit fleetTwo cellZ).2.1 = HitResult.MISS ∧
    ∀ i, Ev.damageIdx i ∉ (request_hit fleetTwo cellZ).2.2 :=
  C2_miss_leaves_fleet_unchanged fleetTwo cellZ (by decide)

/-- C3: the fleet reports a ship sunk exactly when its accumulated damage
equals its length, for any ship whose damage respects the
damage-never-exceeds-length invariant (the modelled sunk test is
"damage >= length", spec §3). -/
theorem C3_sunk_iff_dmg_eq_len (f : Fleet) (i : Nat) (hi : i < f.length)
    (hinv : Fleet.dmgAt f i ≤ Fleet.lenAt f i) :
    Fleet.is_sunk f i = true ↔ Fleet.dmgAt f i = Fleet.lenAt f i := by
  rw [is_sunk_iff_dmg f i hi]
  omega

/-- Witness for C3: the 1-cell ship at (3,3) carrying one point of damage
is reported sunk, and its damage equals its length. -/
theorem C3_sunk_iff_dmg_eq_len_witness :
    Fleet.is_sunk [⟨[cellA], 1⟩] 0 = true ↔
      Fleet.dmgAt [⟨[cellA], 1⟩] 0 = Fleet.lenAt [⟨[cellA], 1⟩] 0 :=
  C3_sunk_iff_dmg_eq_len [⟨[cellA], 1⟩] 0 (by decide) (by decide)

/-- C4: whenever a shot touches a ship and afterwards every ship of the
fleet is sunk, the result is GAME_OVER, whichever ship was touched; and
conversely a GAME_OVER result means the whole fleet is sunk and the shot
touched some ship which — unless the fleet was already entirely sunk — was
the single still-afloat ship and had exactly one cell of damage left to
take. -/
theorem C4_game_over_characterisation (f : Fleet) (c : Vec2) :
    ((∃ i, Fleet.collision_check f c = some i) →
      Fleet.all_sunk (request_hit f c).1 = true →
      (request_hit f c).2.1 = HitResult.GAME_OVER) ∧
    ((request_hit f c).2.1 = HitResult.GAME_OVER →
      Fleet.all_sunk (request_hit f c).1 = true ∧
      ∃ i, Fleet.collision_check f c = some i ∧
        (Fleet.all_sunk f = false →
          Fleet.is_sunk f i = false ∧
          Fleet.dmgAt f i + 1 = Fleet.lenAt f i ∧
          ∀ j, j < f.length → j ≠ i → Fleet.is_sunk f j = true)) := by
  constructor
  · rintro ⟨i, h⟩ hall
    have hi : i < f.length := collision_check_lt f c i h
    have hfst : (request_hit f c).1 = Fleet.damage f i := by
      simp [request_hit, h]
    rw [hfst] at hall
    have hsunk : Fleet.is_sunk (Fleet.damage f i) i = true :=
      all_sunk_is_sunk _ i (by rw [damage_length]; exact hi) hall
    simp [request_hit, h, hsunk, hall]
  · intro hres
    cases hcol : Fleet.collision_check f c with
    | none => simp [request_hit, hcol] at hres
    | some i =>
      have hi : i < f.length := collision_check_lt f c i hcol
      have hfst : (request_hit f c).1 = Fleet.damage f i := by
        simp [request_hit, hcol]
      cases h1 : Fleet.is_sunk (Fleet.damage f i) i with
      | false => simp [request_hit, hcol, h1] at hres
      | true =>
        cases h2 : Fleet.all_sunk (Fleet.damage f i) with
        | false => simp [request_hit, hcol, h1, h2] at hres
        | true =>
          refine ⟨by rw [hfst]; exact h2, i, rfl, ?_⟩
          intro hpre
          have hothers : ∀ j, j < f.length → j ≠ i →
              Fleet.is_sunk f j = true := by
            intro j hj hne
            have hs := all_sunk_is_sunk (Fleet.damage f i) j
              (by rw [damage_length]; exact hj) h2
            rwa [is_sunk_damage_ne f i j hne] at hs
          have hnoti : Fleet.is_sunk f i = false := by
            obtain ⟨k, hk, hkf⟩ := all_sunk_false_exists f hpre
            by_cases hki : k = i
            · subst hki; exact hkf
            · exact absurd (hothers k hk hki) (by simp [hkf])
          refine ⟨hnoti, ?_, hothers⟩
          have hlt : ¬ (Fleet.lenAt f i ≤ Fleet.dmgAt f i) := by
            intro hle
            have hs := (is_sunk_iff_dmg f i hi).mpr hle
            rw [hs] at hnoti
            exact Bool.noConfusion hnoti
          have hge : Fleet.lenAt (Fleet.damage f i) i ≤
              Fleet.dmgAt (Fleet.damage f i) i :=
            (is_sunk_iff_dmg _ i (by rw [damage_length]; exact hi)).mp h1
          rw [lenAt_damage, dmgAt_damage_self f i hi] at hge
          omega

/-- Witness for C4: sinking the last afloat ship — the (1,1) ship of the
two-ship fleet in which the (3,3) ship is already sunk — yields GAME_OVER,
and the converse conjunct applies to that very shot. -/
theorem C4_game_over_characterisation_witness :
    (request_hit [⟨[cellA], 1⟩, ⟨[cellB], 0⟩] cellB).2.1
        = HitResult.GAME_OVER ∧
    Fleet.all_sunk (request_hit [⟨[cellA], 1⟩, ⟨[cellB], 0⟩] cellB).1
        = true := by
  have h := C4_game_over_characterisation [⟨[cellA], 1⟩, ⟨[cellB], 0⟩] cellB
  have hgo := h.1 ⟨1, by decide⟩ (by decide)
  exact ⟨hgo, (h.2 hgo).1⟩

/-- C8 counterexample: resolving two shots at the same cell (3,3) of the
single 1-cell ship leaves it with damage 2, strictly above its length 1 —
an arbitrary sequence of request_hit calls can push damage past the
length. -/
theorem C8_damage_counterexample :
    ¬ (Fleet.dmgAt (shoot_list fleetOne [cellA, cellA]) 0 ≤
       Fleet.lenAt (shoot_list fleetOne [cellA, cellA]) 0) := by decide

/-- C8 as amended: over any sequence of shot resolutions at pairwise
distinct coordinates, starting from an undamaged fleet, no ship's
accumulated damage ever exceeds its length. -/
theorem C8_damage_le_len_distinct_shots (f0 : Fleet) (L : List Vec2)
    (h0 : ∀ s ∈ f0, s.dmg = 0) (hnd : L.Nodup)
    (i : Nat) (hi : i < f0.length) :
    Fleet.dmgAt (shoot_list f0 L) i ≤ Fleet.lenAt (shoot_list f0 L) i := by
  rw [shoot_list_dmgAt]
  have hd0 : Fleet.dmgAt f0 i = 0 := by
    have hz := h0 f0[i] (List.getElem_mem hi)
    simp [Fleet.dmgAt, List.getElem?_eq_getElem hi, hz]
  have hlen := filter_touch_le_len f0 i hi L hnd
  have hsame : Fleet.lenAt (shoot_list f0 L) i = Fleet.lenAt f0 i :=
    lenAt_congr _ _ (shoot_list_map_cells L f0) i
  omega

/-- Witness for the amended C8: shooting each fixture cell once (one hit on
each 1-cell ship, plus a miss) keeps the first ship's damage within its
length. -/
theorem C8_damage_le_len_distinct_shots_witness :
    Fleet.dmgAt (shoot_list fleetTwo [cellA, cellB, cellZ]) 0 ≤
      Fleet.lenAt (shoot_list fleetTwo [cellA, cellB, cellZ]) 0 :=
  C8_damage_le_len_distinct_shots fleetTwo [cellA, cellB, cellZ]
    (by decide) (by decide) 0 (by decide)

/-- C5: a mouse-down whose screen position fails the in_rect bounding check
against the shot board leaves handle_input a no-op — the state is
unchanged, nothing is emitted, and in particular no fire request is
issued. -/
theorem C5_out_of_rect_click_ignored {β : Type}
    (sf : Vec2 → β → β × Bool) (tl sz : Vec2) (cs : Int)
    (s : HState β) (m : Vec2) (h : in_rect m tl sz = false) :
    handle_input sf tl sz cs s (PEvent.mouseDown m) = (s, []) ∧
    ∀ c, Ev.fireRequest c ∉
      (handle_input sf tl sz cs s (PEvent.mouseDown m)).2 := by
  constructor
  · simp [handle_input, h]
  · intro c
    simp [handle_input, h]

/-- Witness for C5: a click at (200,200), outside a 64x64 shot board with
top-left corner (0,0), changes nothing even though the base player would
accept any shot. -/
theorem C5_out_of_rect_click_ignored_witness :
    handle_input (fun _ (b : Unit) => (b, true))
        ((0 : Int), (0 : Int)) ((64 : Int), (64 : Int)) 8
        ⟨true, true, false, ()⟩
        (PEvent.mouseDown ((200 : Int), (200 : Int)))
      = (⟨true, true, false, ()⟩, []) ∧
    ∀ c, Ev.fireRequest c ∉
      (handle_input (fun _ (b : Unit) => (b, true))
        ((0 : Int), (0 : Int)) ((64 : Int), (64 : Int)) 8
        ⟨true, true, false, ()⟩
        (PEvent.mouseDown ((200 : Int), (200 : Int)))).2 :=
  C5_out_of_rect_click_ignored (fun _ (b : Unit) => (b, true))
    ((0 : Int), (0 : Int)) ((64 : Int), (64 : Int)) 8
    ⟨true, true, false, ()⟩ ((200 : Int), (200 : Int)) (by decide)

/-- C6: in a turn started by request_shot, the listener is deregistered by
the very event that registers a valid shot, and consequently the whole
event-loop run of the turn registers at most one shot. -/
theorem C6_at_most_one_shot_per_turn {β : Type}
    (sf : Vec2 → β → β × Bool) (tl sz : Vec2) (cs : Int) :
    (∀ s : HState β, ∀ e c,
      Ev.shotRegistered c ∈ (dispatch sf tl sz cs s e).2 →
      (dispatch sf tl sz cs s e).1.listening = false) ∧
    (∀ s0 : HState β, ∀ es : List PEvent,
      (((runEvents sf tl sz cs (request_shot s0).1 es).2.filter
        isShotReg).length) ≤ 1) := by
  constructor
  · intro s e c hmem
    rcases dispatch_reg_step sf tl sz cs s e with h | ⟨_, h⟩
    · exfalso
      rw [List.length_eq_zero] at h
      have : Ev.shotRegistered c ∈
          (dispatch sf tl sz cs s e).2.filter isShotReg := by
        rw [List.mem_filter]
        exact ⟨hmem, rfl⟩
      rw [h] at this
      exact List.not_mem_nil _ this
    · exact h
  · intro s0 es
    exact runEvents_reg sf tl sz cs es (request_shot s0).1

/-- Witness for C6: with an always-accepting base player and two clicks on
the 64x64 board, the turn still registers at most one shot (the first click
deregisters the listener). -/
theorem C6_at_most_one_shot_per_turn_witness :
    Ev.shotRegistered ((0 : Int), (0 : Int)) ∈
      (dispatch (fun _ (b : Unit) => (b, true))
        ((0 : Int), (0 : Int)) ((64 : Int), (64 : Int)) 8
        ⟨true, true, false, ()⟩
        (PEvent.mouseDown ((4 : Int), (4 : Int)))).2 →
      (dispatch (fun _ (b : Unit) => (b, true))
        ((0 : Int), (0 : Int)) ((64 : Int), (64 : Int)) 8
        ⟨true, true, false, ()⟩
        (PEvent.mouseDown ((4 : Int), (4 : Int)))).1.listening = false :=
  (C6_at_most_one_shot_per_turn (fun _ (b : Unit) => (b, true))
    ((0 : Int), (0 : Int)) ((64 : Int), (64 : Int)) 8).1
    ⟨true, true, false, ()⟩
    (PEvent.mouseDown ((4 : Int), (4 : Int))) ((0 : Int), (0 : Int))

/-- C9: when the base Player.fire rejects a shot, HumanPlayer.fire returns
False and emits neither the Fire sound nor the shoot text (only the
delegated call itself); a rejected in-rectangle click leaves the listener
registration untouched, so the player may click again within the same
turn; and the listener flag drops only on an event whose fire registered a
shot. -/
theorem C9_rejected_fire_keeps_listener {β : Type}
    (sf : Vec2 → β → β × Bool) (tl sz : Vec2) (cs : Int) :
    (∀ b c, (sf c b).2 = false →
      fire sf b c = ((sf c b).1, false, [Ev.fireRequest c])) ∧
    (∀ s : HState β, ∀ m, in_rect m tl sz = true →
      (sf (toCell m tl cs) s.base).2 = false →
      (handle_input sf tl sz cs s (PEvent.mouseDown m)).1.listening
        = s.listening) ∧
    (∀ s : HState β, ∀ e,
      (handle_input sf tl sz cs s e).1.listening ≠ s.listening →
      ∃ c, Ev.shotRegistered c ∈ (handle_input sf tl sz cs s e).2) := by
  refine ⟨?_, ?_, ?_⟩
  · intro b c h
    simp [fire, h]
  · intro s m hr h
    simp [handle_input, hr, fire, h]
  · intro s e hne
    cases e with
    | other => exact absurd rfl hne
    | mouseDown m =>
      rw [handle_input] at hne ⊢
      by_cases hr : in_rect m tl sz
      · rw [if_pos hr] at hne ⊢
        cases hacc : (sf (toCell m tl cs) s.base).2 with
        | false =>
          exfalso
          apply hne
          simp [fire, hacc]
        | true =>
          refine ⟨toCell m tl cs, ?_⟩
          simp [fire, hacc]
      · rw [if_neg hr] at hne
        exact absurd rfl hne

/-- Witness for C9: with an always-rejecting base player, an in-rectangle
click at (4,4) on the 64x64 board leaves the listener registered. -/
theorem C9_rejected_fire_keeps_listener_witness :
    fire (fun _ (b : Unit) => (b, false)) () ((0 : Int), (0 : Int))
      = ((), false, [Ev.fireRequest ((0 : Int), (0 : Int))]) ∧
    (handle_input (fun _ (b : Unit) => (b, false))
      ((0 : Int), (0 : Int)) ((64 : Int), (64 : Int)) 8
      ⟨true, true, false, ()⟩
      (PEvent.mouseDown ((4 : Int), (4 : Int)))).1.listening = true := by
  have h := C9_rejected_fire_keeps_listener (fun _ (b : Unit) => (b, false))
    ((0 : Int), (0 : Int)) ((64 : Int), (64 : Int)) 8
  exact ⟨h.1 () ((0 : Int), (0 : Int)) rfl,
    h.2.1 ⟨true, true, false, ()⟩ ((4 : Int), (4 : Int)) (by decide) rfl⟩

/-- C10: request_shot makes the shot board visible and the ship board
invisible while await_opponent_shot does the reverse, so after either
operation exactly one of the two boards is visible. -/
theorem C10_board_visibility {β : Type} (s : HState β) :
    (request_shot s).1.shot_board_visible = true ∧
    (request_shot s).1.ship_board_visible = false ∧
    (await_opponent_shot s).1.ship_board_visible = true ∧
    (await_opponent_shot s).1.shot_board_visible = false := by
  simp [request_shot, await_opponent_shot]

end Bataille
